import Mathlib

/-!
Verification of the Git-Issue-Assigner repository against its specification.

The resilient communication layer (rate limiter, circuit breaker, retry
orchestrator, webhook receiver) is specified in spec.md §4 but its code is
not present under src/; those components are modelled here directly from the
spec's words (each such definition is marked `Modelled from the spec:`).
The web-app components (firebase operations, IssueCard, RepoInput) are
embedded from their TypeScript sources under src/.
-/

namespace GitIssueAssigner

/-! ### Circuit breaker (spec §4.2) -/

/-- Modelled from the spec: the breaker phase, `phase ∈ {Closed, Open, HalfOpen}`
(spec §3, CircuitBreakerState). The source of this component is not under src/. -/
inductive Phase
  | Closed
  | Open
  | HalfOpen
deriving DecidableEq, Repr

/-- Modelled from the spec: CircuitBreakerConfig
{failureThreshold, recoveryTimeout, halfOpenMaxProbes} (spec §3).
Timestamps and durations are naturals. -/
structure CircuitBreakerConfig where
  failureThreshold : ℕ
  recoveryTimeout : ℕ
  halfOpenMaxProbes : ℕ
deriving DecidableEq, Repr

/-- Modelled from the spec: CircuitBreakerState
{phase, consecutiveFailures, openedAt, probesInFlight} (spec §3). -/
structure CircuitBreakerState where
  phase : Phase
  consecutiveFailures : ℕ
  openedAt : ℕ
  probesInFlight : ℕ
deriving DecidableEq, Repr

/-- Outcome of the wrapped operation, had it been invoked. -/
inductive Outcome
  | success
  | failure
deriving DecidableEq, Repr

/-- Result classification of one `execute` call: the operation succeeded, the
operation was invoked and failed, or the breaker failed fast (CircuitOpen). -/
inductive ExecResult
  | ok
  | opFailed
  | circuitOpen
deriving DecidableEq, Repr

/-- One `execute` call: its result, the successor breaker state, and whether the
wrapped operation (the transport call) was actually invoked. -/
structure ExecStep where
  result : ExecResult
  state : CircuitBreakerState
  invoked : Bool
deriving DecidableEq, Repr

/-- Modelled from the spec: the Closed-phase rows of the transition table
(spec §4.2): success resets consecutiveFailures to 0; a failure increments it
and opens the breaker (openedAt := now) exactly when the incremented count
reaches the threshold. -/
def recordClosed (cfg : CircuitBreakerConfig) (st : CircuitBreakerState)
    (now : ℕ) (out : Outcome) : ExecStep :=
  match out with
  | .success => ⟨.ok, { st with consecutiveFailures := 0 }, true⟩
  | .failure =>
      if cfg.failureThreshold ≤ st.consecutiveFailures + 1 then
        ⟨.opFailed,
          { st with phase := .Open,
                    consecutiveFailures := st.consecutiveFailures + 1,
                    openedAt := now }, true⟩
      else
        ⟨.opFailed, { st with consecutiveFailures := st.consecutiveFailures + 1 }, true⟩

/-- Modelled from the spec: `execute(operation)` (spec §4.2), sequential view.
In Open within the recovery timeout it fails immediately with a fail-fast
error without invoking the operation; past the timeout it admits the caller
as a half-open probe; in Closed it invokes the operation and records the
outcome; a half-open probe resolves the breaker to Closed on success or back
to Open (openedAt := now) on failure. `out` is the outcome the operation
would produce if invoked; the `invoked` flag records whether it was. -/
def execute (cfg : CircuitBreakerConfig) (st : CircuitBreakerState)
    (now : ℕ) (out : Outcome) : ExecStep :=
  match st.phase with
  | .Closed => recordClosed cfg st now out
  | .Open =>
      if now - st.openedAt < cfg.recoveryTimeout then
        ⟨.circuitOpen, st, false⟩
      else
        match out with
        | .success =>
            ⟨.ok, { st with phase := .Closed, consecutiveFailures := 0,
                            probesInFlight := 0 }, true⟩
        | .failure =>
            ⟨.opFailed, { st with phase := .Open, openedAt := now,
                                  probesInFlight := 0 }, true⟩
  | .HalfOpen =>
      match out with
      | .success =>
          ⟨.ok, { st with phase := .Closed, consecutiveFailures := 0,
                          probesInFlight := 0 }, true⟩
      | .failure =>
          ⟨.opFailed, { st with phase := .Open, openedAt := now,
                                probesInFlight := 0 }, true⟩

/-- In the Open phase within the recovery timeout, one `execute` call is the
fail-fast step. -/
theorem execute_open_step (cfg : CircuitBreakerConfig)
    (st : CircuitBreakerState) (now : ℕ) (out : Outcome)
    (hphase : st.phase = .Open)
    (ht : now - st.openedAt < cfg.recoveryTimeout) :
    execute cfg st now out = ⟨.circuitOpen, st, false⟩ := by
  unfold execute
  rw [hphase]
  simp [ht]

/-- Claim C1: while the breaker is Open and `now - openedAt < recoveryTimeout`,
`execute` returns the fail-fast CircuitOpen error immediately, the operation is
never invoked (no transport call occurs), and the breaker state is unchanged. -/
theorem execute_open_fails_fast (cfg : CircuitBreakerConfig)
    (st : CircuitBreakerState) (now : ℕ) (out : Outcome)
    (hphase : st.phase = .Open)
    (ht : now - st.openedAt < cfg.recoveryTimeout) :
    execute cfg st now out = ⟨.circuitOpen, st, false⟩ :=
  execute_open_step cfg st now out hphase ht

/-- Witness for C1 at a concrete breaker state. -/
theorem execute_open_fails_fast_witness :
    execute ⟨3, 10, 1⟩ ⟨.Open, 3, 5, 0⟩ 8 .success = ⟨.circuitOpen, ⟨.Open, 3, 5, 0⟩, false⟩ :=
  execute_open_fails_fast ⟨3, 10, 1⟩ ⟨.Open, 3, 5, 0⟩ 8 .success rfl (by decide)

/-- Claim C3: in the Closed phase a recorded failure transitions the breaker to
Open exactly when the incremented consecutiveFailures count reaches the
failure threshold and never earlier, a recorded success keeps the breaker
Closed and resets consecutiveFailures to 0, and while the breaker is Open
(within the recovery timeout) the wrapped operation is never invoked, so zero
calls reach the transport. -/
theorem breaker_threshold_transition (cfg : CircuitBreakerConfig) :
    (∀ st : CircuitBreakerState, ∀ now : ℕ, st.phase = .Closed →
      (((execute cfg st now .failure).state.phase = .Open ↔
          cfg.failureThreshold ≤ st.consecutiveFailures + 1) ∧
        (execute cfg st now .success).state.phase = .Closed ∧
        (execute cfg st now .success).state.consecutiveFailures = 0)) ∧
    (∀ st : CircuitBreakerState, ∀ now : ℕ, ∀ out : Outcome, st.phase = .Open →
      now - st.openedAt < cfg.recoveryTimeout →
      (execute cfg st now out).invoked = false) := by
  constructor
  · intro st now hphase
    refine ⟨?_, ?_, ?_⟩
    · unfold execute
      rw [hphase]
      unfold recordClosed
      by_cases h : cfg.failureThreshold ≤ st.consecutiveFailures + 1
      · simp [h]
      · simp [h, hphase]
    · unfold execute
      rw [hphase]
      simp [recordClosed, hphase]
    · unfold execute
      rw [hphase]
      simp [recordClosed]
  · intro st now out hphase ht
    rw [execute_open_step cfg st now out hphase ht]

/-- Witness for C3 at a concrete configuration and states. -/
theorem breaker_threshold_transition_witness :
    ((execute ⟨3, 10, 1⟩ ⟨.Closed, 2, 0, 0⟩ 7 .failure).state.phase = .Open ↔
      (3 : ℕ) ≤ 2 + 1) ∧
    (execute ⟨3, 10, 1⟩ ⟨.Open, 3, 5, 0⟩ 8 .failure).invoked = false := by
  constructor
  · exact (((breaker_threshold_transition ⟨3, 10, 1⟩).1 ⟨.Closed, 2, 0, 0⟩ 7 rfl).1)
  · exact (breaker_threshold_transition ⟨3, 10, 1⟩).2 ⟨.Open, 3, 5, 0⟩ 8 .failure rfl (by decide)

/-! ### Rate limiter (spec §4.1) -/

/-- Modelled from the spec: RateLimitConfig {requestsPerWindow, windowDuration}
(spec §3). The source of this component is not under src/. -/
structure RateLimitConfig where
  requestsPerWindow : ℕ
  windowDuration : ℕ
deriving DecidableEq, Repr

/-- Modelled from the spec: RateLimiterState {count, windowStart} (spec §3). -/
structure RateLimiterState where
  count : ℕ
  windowStart : ℕ
deriving DecidableEq, Repr

/-- One evaluation of `acquire()`: either the caller proceeds immediately with
the updated state, or it must suspend for `wait` time units (state after the
possible window reset is carried along). -/
inductive AcquireStep
  | proceed (st : RateLimiterState)
  | suspend (wait : ℕ) (st : RateLimiterState)
deriving DecidableEq, Repr

/-- Modelled from the spec: one evaluation of the fixed-window `acquire()`
algorithm (spec §4.1). If `now - windowStart ≥ windowDuration`, reset
`count := 0, windowStart := now`. If `count < requestsPerWindow`, increment
and return immediately; otherwise compute
`wait = windowDuration - (now - windowStart)` and suspend for `wait`
(after which the caller re-evaluates). -/
def acquireStep (cfg : RateLimitConfig) (st : RateLimiterState)
    (now : ℕ) : AcquireStep :=
  let st₁ : RateLimiterState :=
    if cfg.windowDuration ≤ now - st.windowStart then ⟨0, now⟩ else st
  if st₁.count < cfg.requestsPerWindow then
    .proceed ⟨st₁.count + 1, st₁.windowStart⟩
  else
    .suspend (cfg.windowDuration - (now - st₁.windowStart)) st₁

/-- The rate-limiter state after one `acquire()` evaluation, whether the caller
proceeded or suspended. -/
def limiterAfter (cfg : RateLimitConfig) (st : RateLimiterState)
    (now : ℕ) : RateLimiterState :=
  match acquireStep cfg st now with
  | .proceed st' => st'
  | .suspend _ st' => st'

/-- Run a sequence of `acquire()` calls at the given times; `some` of the final
state when every call proceeded immediately, `none` as soon as any call
suspended. -/
def runAcquires (cfg : RateLimitConfig) (st : RateLimiterState) :
    List ℕ → Option RateLimiterState
  | [] => some st
  | t :: ts =>
      match acquireStep cfg st t with
      | .proceed st' => runAcquires cfg st' ts
      | .suspend _ _ => none

/-- In-window calls that still have budget proceed, incrementing the count and
keeping the window. -/
theorem acquireStep_proceed_of_budget (cfg : RateLimitConfig)
    (st : RateLimiterState) (now : ℕ)
    (hwin : now - st.windowStart < cfg.windowDuration)
    (hcount : st.count < cfg.requestsPerWindow) :
    acquireStep cfg st now = .proceed ⟨st.count + 1, st.windowStart⟩ := by
  unfold acquireStep
  simp [Nat.not_le.mpr hwin, hcount]

/-- Auxiliary induction for C5: from any in-window count, a sequence of
in-window calls that fits the remaining budget all proceed. -/
theorem runAcquires_all_proceed (cfg : RateLimitConfig) (w : ℕ) :
    ∀ (ts : List ℕ) (k : ℕ), k + ts.length ≤ cfg.requestsPerWindow →
      (∀ t ∈ ts, t - w < cfg.windowDuration) →
      runAcquires cfg ⟨k, w⟩ ts = some ⟨k + ts.length, w⟩ := by
  intro ts
  induction ts with
  | nil => intro k _ _; simp [runAcquires]
  | cons t ts ih =>
      intro k hk hwin
      have hwt : t - w < cfg.windowDuration := hwin t (by simp)
      have hcount : k < cfg.requestsPerWindow := by
        simp at hk; omega
      unfold runAcquires
      rw [acquireStep_proceed_of_budget cfg ⟨k, w⟩ t hwt hcount]
      dsimp only
      rw [ih (k + 1) (by simp at hk ⊢; omega) (fun u hu => hwin u (by simp [hu]))]
      simp only [Option.some.injEq, RateLimiterState.mk.injEq, and_true]
      have harith : (t :: ts).length = ts.length + 1 := rfl
      omega

/-- Claim C5: starting from a fresh window (count 0, window start `w`), any
sequence of N ≤ requestsPerWindow calls whose times all fall inside the window
proceeds with no suspension, ending with count N; with the window budget
exhausted, a further call inside the same window suspends for exactly the time
remaining until the window boundary (`wait + (now - windowStart) =
windowDuration`); and a call at or past the boundary
(`now - windowStart ≥ windowDuration`) resets the window. -/
theorem rate_limiter_window_behavior (cfg : RateLimitConfig) (w : ℕ)
    (ts : List ℕ) (hlen : ts.length ≤ cfg.requestsPerWindow)
    (hwin : ∀ t ∈ ts, t - w < cfg.windowDuration) :
    runAcquires cfg ⟨0, w⟩ ts = some ⟨ts.length, w⟩ ∧
    (∀ now : ℕ, now - w < cfg.windowDuration →
      acquireStep cfg ⟨cfg.requestsPerWindow, w⟩ now =
        .suspend (cfg.windowDuration - (now - w)) ⟨cfg.requestsPerWindow, w⟩ ∧
      (cfg.windowDuration - (now - w)) + (now - w) = cfg.windowDuration) ∧
    (∀ now : ℕ, cfg.windowDuration ≤ now - w → 0 < cfg.requestsPerWindow →
      acquireStep cfg ⟨cfg.requestsPerWindow, w⟩ now = .proceed ⟨1, now⟩) := by
  refine ⟨?_, ?_, ?_⟩
  · simpa using runAcquires_all_proceed cfg w ts 0 (by simpa using hlen) hwin
  · intro now hnow
    constructor
    · unfold acquireStep
      simp [Nat.not_le.mpr hnow]
    · omega
  · intro now hnow hpos
    unfold acquireStep
    simp [hnow, hpos]

/-- Witness for C5: requestsPerWindow = 3, windowDuration = 10, window start 0;
calls at times 1, 2, 3 all proceed; a fourth call at time 4 suspends for 6
time units; a call at time 12 resets the window. -/
theorem rate_limiter_window_behavior_witness :
    runAcquires ⟨3, 10⟩ ⟨0, 0⟩ [1, 2, 3] = some ⟨3, 0⟩ ∧
    acquireStep ⟨3, 10⟩ ⟨3, 0⟩ 4 = .suspend 6 ⟨3, 0⟩ ∧
    acquireStep ⟨3, 10⟩ ⟨3, 0⟩ 12 = .proceed ⟨1, 12⟩ := by
  have h := rate_limiter_window_behavior ⟨3, 10⟩ 0 [1, 2, 3] (by decide)
    (by intro t ht; fin_cases ht <;> decide)
  refine ⟨h.1, ?_, ?_⟩
  · exact (h.2.1 4 (by decide)).1
  · exact h.2.2 12 (by decide) (by decide)

/-- Claim C7: the count never exceeds requestsPerWindow in any reachable state:
one `acquire()` evaluation preserves `count ≤ requestsPerWindow`, and hence any
interleaving of call evaluations (window resets happen inside the evaluation)
starting from a fresh state keeps the count within the budget. -/
theorem rate_limiter_count_bounded (cfg : RateLimitConfig) :
    (∀ (st : RateLimiterState) (now : ℕ), st.count ≤ cfg.requestsPerWindow →
      (limiterAfter cfg st now).count ≤ cfg.requestsPerWindow) ∧
    (∀ (t₀ : ℕ) (ts : List ℕ),
      (ts.foldl (fun st now => limiterAfter cfg st now) ⟨0, t₀⟩).count ≤
        cfg.requestsPerWindow) := by
  have step : ∀ (st : RateLimiterState) (now : ℕ),
      st.count ≤ cfg.requestsPerWindow →
      (limiterAfter cfg st now).count ≤ cfg.requestsPerWindow := by
    intro st now hst
    unfold limiterAfter acquireStep
    dsimp only
    split_ifs with h1 h2 h2 <;> dsimp only <;> omega
  refine ⟨step, ?_⟩
  intro t₀ ts
  have gen : ∀ (ts : List ℕ) (st : RateLimiterState),
      st.count ≤ cfg.requestsPerWindow →
      (ts.foldl (fun st now => limiterAfter cfg st now) st).count ≤
        cfg.requestsPerWindow := by
    intro ts
    induction ts with
    | nil => intro st hst; simpa using hst
    | cons t ts ih =>
        intro st hst
        simpa using ih (limiterAfter cfg st t) (step st t hst)
  exact gen ts ⟨0, t₀⟩ (by simp)

/-- Witness for C7 at a concrete interleaving that exercises both the reset and
the saturated branch. -/
theorem rate_limiter_count_bounded_witness :
    (limiterAfter ⟨3, 10⟩ ⟨3, 0⟩ 4).count ≤ 3 ∧
    (([1, 2, 3, 4, 5, 12, 13] : List ℕ).foldl
      (fun st now => limiterAfter ⟨3, 10⟩ st now) ⟨0, 0⟩).count ≤ 3 :=
  ⟨(rate_limiter_count_bounded ⟨3, 10⟩).1 ⟨3, 0⟩ 4 (by decide),
   (rate_limiter_count_bounded ⟨3, 10⟩).2 0 [1, 2, 3, 4, 5, 12, 13]⟩

/-! ### Retry orchestrator (spec §4.3) -/

/-- Modelled from the spec: RetryConfig {maxAttempts, baseDelay, maxDelay,
multiplier, jitterFraction} (spec §3). Delays and the multiplier are
rationals; the source of this component is not under src/. -/
structure RetryConfig where
  maxAttempts : ℕ
  baseDelay : ℚ
  maxDelay : ℚ
  multiplier : ℚ
  jitterFraction : ℚ
deriving DecidableEq, Repr

/-- Classified outcome of one attempt of the wrapped operation (spec §4.3):
success, fail-fast (breaker Open), terminal failure, or a retryable failure
carrying its underlying cause. -/
inductive AttemptOutcome
  | success
  | failFast
  | terminal
  | retryable (cause : ℕ)
deriving DecidableEq, Repr

/-- Result of a whole retry run (spec §7): success, CircuitOpen propagated,
terminal failure propagated, or RetriesExhausted wrapping the last cause. -/
inductive RetryResult
  | ok
  | circuitOpenErr
  | terminalErr
  | retriesExhausted (lastCause : ℕ)
deriving DecidableEq, Repr

/-- A finished retry run: its result, the number of attempts actually made,
and the sequence of backoff delays (before jitter) slept between attempts. -/
structure RunResult where
  result : RetryResult
  attemptsMade : ℕ
  delays : List ℚ
deriving DecidableEq, Repr

/-- Modelled from the spec: the pre-jitter backoff delay for a given attempt,
`delay = min(maxDelay, baseDelay * multiplier^(attempt-1))` (spec §4.3). The
randomized jitter of up to jitterFraction is applied after this value and is
not modelled. -/
def backoffDelay (cfg : RetryConfig) (attempt : ℕ) : ℚ :=
  min cfg.maxDelay (cfg.baseDelay * cfg.multiplier ^ (attempt - 1))

/-- Modelled from the spec: the `attempt = 1..maxAttempts` loop of
`attempt(operation, classify)` (spec §4.3). `outcomes k` is the classified
outcome of the k-th attempt; `a` is the current attempt number and `rem` the
number of attempts remaining after it. Success, fail-fast and terminal
outcomes return immediately; a retryable failure with attempts remaining
records the backoff delay and continues; with no attempts remaining it
surfaces RetriesExhausted wrapping the last cause. -/
def attemptAux (cfg : RetryConfig) (outcomes : ℕ → AttemptOutcome) :
    ℕ → ℕ → RunResult
  | a, rem =>
      match outcomes a with
      | .success => ⟨.ok, a, []⟩
      | .failFast => ⟨.circuitOpenErr, a, []⟩
      | .terminal => ⟨.terminalErr, a, []⟩
      | .retryable c =>
          match rem with
          | 0 => ⟨.retriesExhausted c, a, []⟩
          | rem' + 1 =>
              let d := backoffDelay cfg a
              let r := attemptAux cfg outcomes (a + 1) rem'
              ⟨r.result, r.attemptsMade, d :: r.delays⟩

/-- Modelled from the spec: a whole `attempt(operation, classify)` run,
starting at attempt 1 with `maxAttempts - 1` further attempts available. -/
def attemptRun (cfg : RetryConfig) (outcomes : ℕ → AttemptOutcome) : RunResult :=
  attemptAux cfg outcomes 1 (cfg.maxAttempts - 1)

/-- The delays of a retry run are consecutive backoff delays starting at the
first attempt, never more than the remaining attempt budget. -/
theorem attemptAux_delays (cfg : RetryConfig) (outcomes : ℕ → AttemptOutcome) :
    ∀ (rem a : ℕ), ∃ k ≤ rem,
      (attemptAux cfg outcomes a rem).delays =
        (List.range k).map (fun i => backoffDelay cfg (a + i)) := by
  intro rem
  induction rem with
  | zero =>
      intro a
      refine ⟨0, le_refl 0, ?_⟩
      unfold attemptAux
      match h : outcomes a with
      | .success => simp [h]
      | .failFast => simp [h]
      | .terminal => simp [h]
      | .retryable c => simp [h]
  | succ rem ih =>
      intro a
      unfold attemptAux
      match h : outcomes a with
      | .success => exact ⟨0, Nat.zero_le _, by simp [h]⟩
      | .failFast => exact ⟨0, Nat.zero_le _, by simp [h]⟩
      | .terminal => exact ⟨0, Nat.zero_le _, by simp [h]⟩
      | .retryable c =>
          obtain ⟨k, hk, hdel⟩ := ih (a + 1)
          refine ⟨k + 1, by omega, ?_⟩
          simp only [h]
          rw [List.range_succ_eq_map, List.map_cons, List.map_map]
          show backoffDelay cfg a :: (attemptAux cfg outcomes (a + 1) rem).delays = _
          have hmap : List.map (fun i => backoffDelay cfg (a + 1 + i)) (List.range k)
              = List.map ((fun i => backoffDelay cfg (a + i)) ∘ Nat.succ) (List.range k) := by
            apply List.map_congr_left
            intro i _
            simp only [Function.comp_apply, Nat.succ_eq_add_one]
            congr 1
            omega
          rw [hdel, hmap]
          norm_num

/-- The attempt counter of a retry run never exceeds the current attempt
number plus the remaining budget. -/
theorem attemptAux_attempts_le (cfg : RetryConfig)
    (outcomes : ℕ → AttemptOutcome) :
    ∀ (rem a : ℕ), (attemptAux cfg outcomes a rem).attemptsMade ≤ a + rem := by
  intro rem
  induction rem with
  | zero =>
      intro a
      unfold attemptAux
      match h : outcomes a with
      | .success => simp [h]
      | .failFast => simp [h]
      | .terminal => simp [h]
      | .retryable c => simp [h]
  | succ rem ih =>
      intro a
      unfold attemptAux
      match h : outcomes a with
      | .success => simp [h]
      | .failFast => simp [h]
      | .terminal => simp [h]
      | .retryable c =>
          simp only [h]
          have := ih (a + 1)
          show (attemptAux cfg outcomes (a + 1) rem).attemptsMade ≤ a + (rem + 1)
          omega

/-- The pre-jitter backoff delay is non-decreasing in the attempt number when
the multiplier is at least 1 and the base delay is non-negative. -/
theorem backoffDelay_mono (cfg : RetryConfig) (hb : 0 ≤ cfg.baseDelay)
    (hm : 1 ≤ cfg.multiplier) (a : ℕ) :
    backoffDelay cfg a ≤ backoffDelay cfg (a + 1) := by
  unfold backoffDelay
  refine min_le_min (le_refl _) ?_
  refine mul_le_mul_of_nonneg_left ?_ hb
  exact pow_le_pow_right₀ hm (by omega)

/-- Claim C4: in any retry run the slept pre-jitter delays are exactly the
consecutive values `min(maxDelay, baseDelay * multiplier^(attempt-1))` for
attempts 1, 2, …; across the run they are non-decreasing (multiplier ≥ 1,
baseDelay ≥ 0), each is capped at maxDelay, and the total number of attempts
made never exceeds maxAttempts. -/
theorem retry_backoff_spec (cfg : RetryConfig) (outcomes : ℕ → AttemptOutcome)
    (hattempts : 1 ≤ cfg.maxAttempts) (hb : 0 ≤ cfg.baseDelay)
    (hm : 1 ≤ cfg.multiplier) :
    (∃ k < cfg.maxAttempts,
      (attemptRun cfg outcomes).delays =
        (List.range k).map
          (fun i => min cfg.maxDelay (cfg.baseDelay * cfg.multiplier ^ i))) ∧
    List.Chain' (fun d₁ d₂ => d₁ ≤ d₂) (attemptRun cfg outcomes).delays ∧
    (∀ d ∈ (attemptRun cfg outcomes).delays, d ≤ cfg.maxDelay) ∧
    (attemptRun cfg outcomes).attemptsMade ≤ cfg.maxAttempts := by
  obtain ⟨k, hk, hdel⟩ := attemptAux_delays cfg outcomes (cfg.maxAttempts - 1) 1
  have hklt : k < cfg.maxAttempts := by omega
  have hdel' : (attemptRun cfg outcomes).delays =
      (List.range k).map
        (fun i => min cfg.maxDelay (cfg.baseDelay * cfg.multiplier ^ i)) := by
    unfold attemptRun
    rw [hdel]
    apply List.map_congr_left
    intro i _
    unfold backoffDelay
    have harg : 1 + i - 1 = i := by omega
    rw [harg]
  refine ⟨⟨k, hklt, hdel'⟩, ?_, ?_, ?_⟩
  · unfold attemptRun
    rw [hdel]
    have chain : ∀ (n a : ℕ), List.Chain' (fun d₁ d₂ => d₁ ≤ d₂)
        ((List.range n).map (fun i => backoffDelay cfg (a + i))) := by
      intro n
      induction n with
      | zero => intro a; simp
      | succ n ih =>
          intro a
          rw [List.range_succ_eq_map, List.map_cons, List.map_map]
          rw [List.chain'_cons']
          constructor
          · intro b hb'
            match n, hb' with
            | n + 1, hb' =>
                simp only [List.range_succ_eq_map, List.map_cons,
                  List.head?_cons, Option.mem_def, Option.some.injEq] at hb'
                subst hb'
                simpa using backoffDelay_mono cfg hb hm a
          · have := ih (a + 1)
            convert this using 2
            funext i
            simp [Function.comp]
            congr 1
            omega
    exact chain k 1
  · intro d hd
    rw [hdel'] at hd
    simp only [List.mem_map] at hd
    obtain ⟨i, _, rfl⟩ := hd
    exact min_le_left _ _
  · have := attemptAux_attempts_le cfg outcomes (cfg.maxAttempts - 1) 1
    unfold attemptRun
    omega

/-- Witness for C4: maxAttempts = 3, baseDelay = 100, maxDelay = 1000,
multiplier = 2, every attempt retryable. -/
theorem retry_backoff_spec_witness :
    (attemptRun ⟨3, 100, 1000, 2, 0⟩ (fun _ => .retryable 7)).attemptsMade ≤ 3 ∧
    (∀ d ∈ (attemptRun ⟨3, 100, 1000, 2, 0⟩ (fun _ => .retryable 7)).delays,
      d ≤ (1000 : ℚ)) := by
  have h := retry_backoff_spec ⟨3, 100, 1000, 2, 0⟩ (fun _ => .retryable 7)
    (by norm_num) (by norm_num) (by norm_num)
  exact ⟨h.2.2.2, h.2.2.1⟩

/-- Every attempt retryable: the run uses all attempts and surfaces
RetriesExhausted wrapping the cause of the last attempt. -/
theorem attemptAux_all_retryable (cfg : RetryConfig) (cause : ℕ → ℕ)
    (outcomes : ℕ → AttemptOutcome)
    (hout : ∀ k, outcomes k = .retryable (cause k)) :
    ∀ (rem a : ℕ), (attemptAux cfg outcomes a rem).result =
        .retriesExhausted (cause (a + rem)) ∧
      (attemptAux cfg outcomes a rem).attemptsMade = a + rem := by
  intro rem
  induction rem with
  | zero =>
      intro a
      unfold attemptAux
      simp [hout a]
  | succ rem ih =>
      intro a
      unfold attemptAux
      simp only [hout a]
      have := ih (a + 1)
      constructor
      · show (attemptAux cfg outcomes (a + 1) rem).result = _
        rw [this.1]
        have harg : a + 1 + rem = a + (rem + 1) := by omega
        rw [harg]
      · show (attemptAux cfg outcomes (a + 1) rem).attemptsMade = _
        rw [this.2]
        omega

/-- Claim C6: when every one of the maxAttempts attempts ends in a retryable
failure, the retry run makes exactly maxAttempts attempts and returns a
RetriesExhausted error wrapping the underlying cause of the last attempt. -/
theorem retries_exhausted_wraps_last (cfg : RetryConfig) (cause : ℕ → ℕ)
    (outcomes : ℕ → AttemptOutcome) (hattempts : 1 ≤ cfg.maxAttempts)
    (hout : ∀ k, outcomes k = .retryable (cause k)) :
    (attemptRun cfg outcomes).result =
        .retriesExhausted (cause cfg.maxAttempts) ∧
      (attemptRun cfg outcomes).attemptsMade = cfg.maxAttempts := by
  have h := attemptAux_all_retryable cfg cause outcomes hout (cfg.maxAttempts - 1) 1
  have harith : 1 + (cfg.maxAttempts - 1) = cfg.maxAttempts := by omega
  unfold attemptRun
  rw [harith] at h
  exact h

/-- Witness for C6: three attempts, each failing with a distinct retryable
cause; the run exhausts retries wrapping the third cause. -/
theorem retries_exhausted_wraps_last_witness :
    (attemptRun ⟨3, 100, 1000, 2, 0⟩ (fun k => .retryable (10 * k))).result =
        .retriesExhausted 30 ∧
      (attemptRun ⟨3, 100, 1000, 2, 0⟩ (fun k => .retryable (10 * k))).attemptsMade = 3 :=
  retries_exhausted_wraps_last ⟨3, 100, 1000, 2, 0⟩ (fun k => 10 * k)
    (fun k => .retryable (10 * k)) (by norm_num) (fun _ => rfl)

/-! ### Webhook receiver (spec §4.5) -/

/-- Modelled from the spec: NormalizedEvent
{sourceType, eventType, rawPayload, receivedAt} (spec §3); source types are
abstracted as naturals and raw bytes as lists of naturals. The source of this
component is not under src/. -/
structure NormalizedEvent where
  sourceType : ℕ
  eventType : String
  rawPayload : List ℕ
  receivedAt : ℕ
deriving DecidableEq, Repr

/-- An inbound webhook HTTP request: its source route, the raw body bytes read
verbatim, and the signature header value. -/
structure InboundRequest where
  sourceType : ℕ
  rawBody : List ℕ
  signatureHeader : List ℕ
deriving DecidableEq, Repr

/-- The receiver's response to one inbound request: accepted (200) carrying the
normalized event handed to dispatch, unauthorized (401-equivalent) on
signature mismatch, or bad request (400-equivalent) on a malformed payload. -/
inductive WebhookResponse
  | accepted (ev : NormalizedEvent)
  | unauthorized
  | badRequest
deriving DecidableEq, Repr

/-- Modelled from the spec: per-request processing of the webhook receiver
(spec §4.5 steps 1–4). `mac secret body` is the keyed hash of the raw body
bytes under the source's secret (the concrete hash is unspecified and kept
abstract); `secrets` is the WebhookSecret mapping; `parseEvent` extracts the
event type from the body, `none` on parse failure. The expected signature is
compared against the header; mismatch rejects with an authentication failure
and no further processing, parse failure rejects with a malformed-payload
status, and otherwise the NormalizedEvent over the exact raw bytes is handed
to asynchronous dispatch. -/
def handleWebhook (mac : List ℕ → List ℕ → List ℕ) (secrets : ℕ → List ℕ)
    (parseEvent : List ℕ → Option String) (req : InboundRequest)
    (now : ℕ) : WebhookResponse :=
  if req.signatureHeader = mac (secrets req.sourceType) req.rawBody then
    match parseEvent req.rawBody with
    | some et => .accepted ⟨req.sourceType, et, req.rawBody, now⟩
    | none => .badRequest
  else
    .unauthorized

/-- Modelled from the spec: the events handed to registered handlers for one
request — exactly the event of an accepted response, nothing for a rejected
one (spec §4.5 step 5: boundary rejections never reach handlers). -/
def dispatchedEvents (resp : WebhookResponse) : List NormalizedEvent :=
  match resp with
  | .accepted ev => [ev]
  | .unauthorized => []
  | .badRequest => []

/-- Claim C2: a request whose signature verifies and whose body parses yields
exactly one handler invocation, with a NormalizedEvent carrying the exact raw
payload of the request; a request whose signature does not verify is rejected
with an authentication failure and yields zero handler invocations; and in
all cases a handler invocation only ever happens for a request whose
signature verified, with the event's payload equal to the request body. -/
theorem webhook_signature_gate (mac : List ℕ → List ℕ → List ℕ)
    (secrets : ℕ → List ℕ) (parseEvent : List ℕ → Option String)
    (req : InboundRequest) (now : ℕ) :
    (∀ et, req.signatureHeader = mac (secrets req.sourceType) req.rawBody →
      parseEvent req.rawBody = some et →
      dispatchedEvents (handleWebhook mac secrets parseEvent req now) =
        [⟨req.sourceType, et, req.rawBody, now⟩]) ∧
    (req.signatureHeader ≠ mac (secrets req.sourceType) req.rawBody →
      handleWebhook mac secrets parseEvent req now = .unauthorized ∧
      dispatchedEvents (handleWebhook mac secrets parseEvent req now) = []) ∧
    (∀ ev ∈ dispatchedEvents (handleWebhook mac secrets parseEvent req now),
      req.signatureHeader = mac (secrets req.sourceType) req.rawBody ∧
      ev.rawPayload = req.rawBody) := by
  refine ⟨?_, ?_, ?_⟩
  · intro et hsig hparse
    unfold handleWebhook
    simp [hsig, hparse, dispatchedEvents]
  · intro hsig
    unfold handleWebhook
    simp [hsig, dispatchedEvents]
  · intro ev hev
    by_cases hsig : req.signatureHeader = mac (secrets req.sourceType) req.rawBody
    · refine ⟨hsig, ?_⟩
      unfold handleWebhook at hev
      rw [if_pos hsig] at hev
      match hparse : parseEvent req.rawBody with
      | some et =>
          rw [hparse] at hev
          simp [dispatchedEvents] at hev
          rw [hev]
      | none =>
          rw [hparse] at hev
          simp [dispatchedEvents] at hev
    · exfalso
      unfold handleWebhook at hev
      rw [if_neg hsig] at hev
      simp [dispatchedEvents] at hev

/-- Witness for C2: a concrete keyed hash (secret concatenated with the body),
one request correctly signed and one with a tampered body. -/
theorem webhook_signature_gate_witness :
    dispatchedEvents
        (handleWebhook (fun s b => s ++ b) (fun _ => [9])
          (fun _ => some "issues") ⟨0, [1, 2], [9, 1, 2]⟩ 5) =
      [⟨0, "issues", [1, 2], 5⟩] ∧
    handleWebhook (fun s b => s ++ b) (fun _ => [9])
        (fun _ => some "issues") ⟨0, [1, 2, 3], [9, 1, 2]⟩ 5 = .unauthorized := by
  constructor
  · exact (webhook_signature_gate (fun s b => s ++ b) (fun _ => [9])
      (fun _ => some "issues") ⟨0, [1, 2], [9, 1, 2]⟩ 5).1 "issues" (by decide) rfl
  · exact ((webhook_signature_gate (fun s b => s ++ b) (fun _ => [9])
      (fun _ => some "issues") ⟨0, [1, 2, 3], [9, 1, 2]⟩ 5).2.1 (by decide)).1

/-! ### Firebase operations (src/web-app/src/lib/firebase.ts) -/

/-- Embedded from src/web-app/src/lib/firebase.ts: the `Developer` record used
inside a FirebaseBatch. JS numbers are integers or rationals here; optional
fields are `Option`. -/
structure Developer where
  id : String
  name : String
  github_username : String
  email : String
  skills : List String
  experience_level : String
  max_capacity : ℤ
  workload : ℤ
  available : Bool
  current_issues : List ℤ
  contributions : ℤ
  source_type : String
  recent_commits : Option ℤ
  pr_count : Option ℤ
  issue_count : Option ℤ
  review_count : Option ℤ
  recency_score : Option ℚ
  activity_score : Option ℚ
deriving DecidableEq, Repr

/-- Embedded from src/web-app/src/lib/firebase.ts: the `Assignment` record used
inside a FirebaseBatch. -/
structure Assignment where
  timestamp : String
  issue_id : String
  issue_number : ℤ
  issue_title : String
  issue_description : Option String
  issue_url : String
  issue_labels : Option (List String)
  required_skills : Option (List String)
  assigned_to : String
  real_name : String
  developer_id : String
  source_type : String
  category : String
  confidence : ℚ
  assignment_score : ℚ
  github_profile : String
  real_contributions : ℤ
  is_real_developer : Bool
  github_assigned : Bool
deriving DecidableEq, Repr

/-- Embedded from src/web-app/src/lib/firebase.ts: the `stats` sub-object of a
FirebaseBatch. -/
structure BatchStats where
  total_developers : ℤ
  total_assignments : ℤ
  contributors_count : ℤ
  collaborators_count : ℤ
deriving DecidableEq, Repr

/-- Embedded from src/web-app/src/lib/firebase.ts: the `FirebaseBatch`
document shape; `id` is optional (absent before a document id is attached)
and the Firestore `Timestamp` is a natural. -/
structure FirebaseBatch where
  id : Option String
  timestamp : ℕ
  repository : String
  developers : List Developer
  assignments : List Assignment
  stats : BatchStats
deriving DecidableEq, Repr

/-- The outcome of an awaited Firestore call: it either returns a value or
throws with an error message. -/
inductive FirestoreOutcome (α : Type)
  | ok (val : α)
  | thrown (msg : String)
deriving DecidableEq, Repr

/-- Embedded from src/web-app/src/lib/firebase.ts: the resolved value of
`firebaseOperations.saveBatch` — `{success: true, id}` when `addDoc`
returned a document reference, `{success: false, error}` when it threw. -/
structure SaveBatchResult where
  success : Bool
  id : Option String
  error : Option String
deriving DecidableEq, Repr

/-- Embedded from src/web-app/src/lib/firebase.ts (`saveBatch`): the try/catch
wrapper around `addDoc`; `addDocOutcome` is the id of the created document or
the thrown error. Every outcome resolves to a SaveBatchResult; nothing
escapes the catch. -/
def saveBatch (addDocOutcome : FirestoreOutcome String) : SaveBatchResult :=
  match addDocOutcome with
  | .ok docId => ⟨true, some docId, none⟩
  | .thrown msg => ⟨false, none, some msg⟩

/-- Embedded from src/web-app/src/lib/firebase.ts: the resolved value of
`firebaseOperations.loadBatches`. -/
structure LoadBatchesResult where
  success : Bool
  batches : List FirebaseBatch
  error : Option String
deriving DecidableEq, Repr

/-- Embedded from src/web-app/src/lib/firebase.ts (`loadBatches`): the
try/catch wrapper around `getDocs`; a successful query yields the documents
as (doc id, data) pairs, pushed with the id spread over the data; a thrown
error yields `{success: false, error, batches: []}`. -/
def loadBatches (getDocsOutcome : FirestoreOutcome (List (String × FirebaseBatch))) :
    LoadBatchesResult :=
  match getDocsOutcome with
  | .ok docs => ⟨true, docs.map (fun d => { d.2 with id := some d.1 }), none⟩
  | .thrown msg => ⟨false, [], some msg⟩

/-- Embedded from src/web-app/src/lib/firebase.ts: the resolved value of
`firebaseOperations.deleteBatch`. -/
structure DeleteBatchResult where
  success : Bool
  error : Option String
deriving DecidableEq, Repr

/-- Embedded from src/web-app/src/lib/firebase.ts (`deleteBatch`): the
try/catch wrapper around `deleteDoc` for a given batch id. -/
def deleteBatch (batchId : String) (deleteDocOutcome : FirestoreOutcome Unit) :
    DeleteBatchResult :=
  match deleteDocOutcome with
  | .ok _ => ⟨true, none⟩
  | .thrown msg => ⟨false, some msg⟩

/-- Claim C8: for every Firestore outcome each of saveBatch, loadBatches and
deleteBatch resolves to a result object (they are total functions, so no
rejection escapes): a thrown error is returned as success = false with the
error message, a successful outcome as success = true, and loadBatches
returns an empty batches list in the failure case. -/
theorem firebase_operations_never_reject :
    (∀ docId : String, saveBatch (.ok docId) = ⟨true, some docId, none⟩) ∧
    (∀ msg : String, saveBatch (.thrown msg) = ⟨false, none, some msg⟩) ∧
    (∀ docs, (loadBatches (.ok docs)).success = true) ∧
    (∀ msg : String, loadBatches (.thrown msg) = ⟨false, [], some msg⟩) ∧
    (∀ batchId : String, deleteBatch batchId (.ok ()) = ⟨true, none⟩) ∧
    (∀ batchId msg : String, deleteBatch batchId (.thrown msg) = ⟨false, some msg⟩) ∧
    (∀ o, (saveBatch o).success = true ∨ (saveBatch o).success = false) ∧
    (∀ o, (loadBatches o).success = true ∨ (loadBatches o).success = false) ∧
    (∀ batchId o, (deleteBatch batchId o).success = true ∨
      (deleteBatch batchId o).success = false) := by
  refine ⟨fun _ => rfl, fun _ => rfl, fun _ => rfl, fun _ => rfl, fun _ => rfl,
    fun _ _ => rfl, fun o => ?_, fun o => ?_, fun _ o => ?_⟩ <;>
    cases o <;> simp [saveBatch, loadBatches, deleteBatch]

/-! ### IssueCard (src/unnamed/part_001) -/

/-- Embedded from IssueCard's `getConfidenceEmoji` (src/unnamed/part_001):
the cascading threshold checks `conf >= 0.8`, `conf >= 0.6`, `conf >= 0.4`
with a default, over rational confidence values. -/
def getConfidenceEmoji (conf : ℚ) : String :=
  if 8/10 ≤ conf then "🎯"
  else if 6/10 ≤ conf then "✅"
  else if 4/10 ≤ conf then "⚠️"
  else "❓"

/-- Claim C9: getConfidenceEmoji is a total function of the confidence value
alone, returning exactly one of four emojis by thresholds: the target emoji
when confidence ≥ 0.8, the check mark on [0.6, 0.8), the warning sign on
[0.4, 0.6), and the question mark otherwise (confidence < 0.4) — including
values outside [0, 1]. -/
theorem getConfidenceEmoji_thresholds (conf : ℚ) :
    (8/10 ≤ conf → getConfidenceEmoji conf = "🎯") ∧
    (6/10 ≤ conf → conf < 8/10 → getConfidenceEmoji conf = "✅") ∧
    (4/10 ≤ conf → conf < 6/10 → getConfidenceEmoji conf = "⚠️") ∧
    (conf < 4/10 → getConfidenceEmoji conf = "❓") := by
  unfold getConfidenceEmoji
  refine ⟨fun h => ?_, fun h h' => ?_, fun h h' => ?_, fun h => ?_⟩
  · rw [if_pos h]
  · rw [if_neg (by linarith), if_pos h]
  · rw [if_neg (by linarith), if_neg (by linarith), if_pos h]
  · rw [if_neg (by linarith), if_neg (by linarith), if_neg (by linarith)]

/-- Witness for C9, one confidence value in each of the four ranges,
including a value above 1 and a negative value. -/
theorem getConfidenceEmoji_thresholds_witness :
    getConfidenceEmoji (3/2) = "🎯" ∧ getConfidenceEmoji (7/10) = "✅" ∧
    getConfidenceEmoji (1/2) = "⚠️" ∧ getConfidenceEmoji (-1) = "❓" :=
  ⟨(getConfidenceEmoji_thresholds (3/2)).1 (by norm_num),
   (getConfidenceEmoji_thresholds (7/10)).2.1 (by norm_num) (by norm_num),
   (getConfidenceEmoji_thresholds (1/2)).2.2.1 (by norm_num) (by norm_num),
   (getConfidenceEmoji_thresholds (-1)).2.2.2 (by norm_num)⟩

/-! ### RepoInput (src/unnamed/part_002) -/

/-- ECMAScript whitespace as trimmed by `String.prototype.trim`: the WhiteSpace
production (TAB U+0009, VT U+000B, FF U+000C, ZWNBSP U+FEFF, and every
Space_Separator code point: SP U+0020, NBSP U+00A0, U+1680, U+2000–U+200A,
U+202F, U+205F, U+3000) together with the LineTerminator production
(LF U+000A, CR U+000D, LS U+2028, PS U+2029). -/
def jsWhitespace (c : Char) : Bool :=
  [9, 10, 11, 12, 13, 32, 160, 5760, 8192, 8193, 8194, 8195, 8196, 8197, 8198,
    8199, 8200, 8201, 8202, 8232, 8233, 8239, 8287, 12288, 65279].contains c.toNat

/-- Character-list version of JS `trim`: drop whitespace from the front, then
from the back. -/
def trimChars (l : List Char) : List Char :=
  ((l.dropWhile jsWhitespace).reverse.dropWhile jsWhitespace).reverse

/-- Embedded from RepoInput (src/unnamed/part_002): JS `repoName.trim()`. -/
def jsTrim (s : String) : String :=
  ⟨trimChars s.data⟩

/-- Embedded from RepoInput's `handleSubmit` (src/unnamed/part_002): after
preventing the default form action, call `onStart(repoName.trim())` exactly
when `repoName.trim()` is truthy (a non-empty string); the value returned is
the argument passed to `onStart`, `none` when `onStart` is not called. -/
def handleSubmit (repoName : String) : Option String :=
  if jsTrim repoName ≠ "" then some (jsTrim repoName) else none

/-- The head of `dropWhile p` never satisfies `p`. -/
theorem head_dropWhile_not (p : Char → Bool) :
    ∀ (l : List Char) (c : Char), (l.dropWhile p).head? = some c → p c = false := by
  intro l
  induction l with
  | nil => intro c hc; simp [List.dropWhile] at hc
  | cons a l ih =>
      intro c hc
      rw [List.dropWhile] at hc
      cases ha : p a with
      | true =>
          simp only [ha] at hc
          exact ih c hc
      | false =>
          simp only [ha, List.head?_cons, Option.some.injEq] at hc
          rw [← hc]
          exact ha

/-- `dropWhile` keeps the last element when its result is non-empty. -/
theorem getLast_dropWhile (p : Char → Bool) :
    ∀ (l : List Char), (l.dropWhile p) ≠ [] →
      (l.dropWhile p).getLast? = l.getLast? := by
  intro l
  induction l with
  | nil => intro h; simp [List.dropWhile] at h
  | cons a l ih =>
      intro h
      rw [List.dropWhile] at h ⊢
      cases ha : p a with
      | true =>
          simp only [ha] at h ⊢
          have hl : l ≠ [] := by
            intro hnil
            rw [hnil] at h
            simp [List.dropWhile] at h
          rw [ih h]
          match l, hl with
          | b :: l', _ => rw [List.getLast?_cons_cons]
      | false =>
          simp only [ha]

/-- The trimmed character list never starts with whitespace. -/
theorem trimChars_head (l : List Char) (c : Char)
    (hc : (trimChars l).head? = some c) : jsWhitespace c = false := by
  unfold trimChars at hc
  set m := l.dropWhile jsWhitespace with hm
  set d := m.reverse.dropWhile jsWhitespace with hd
  have hdne : d ≠ [] := by
    intro hnil
    rw [hnil] at hc
    simp at hc
  rw [List.head?_reverse] at hc
  rw [hd, getLast_dropWhile jsWhitespace m.reverse (by rw [← hd]; exact hdne)] at hc
  rw [List.getLast?_reverse] at hc
  exact head_dropWhile_not jsWhitespace l c (by rw [← hm]; exact hc)

/-- The trimmed character list never ends with whitespace. -/
theorem trimChars_getLast (l : List Char) (c : Char)
    (hc : (trimChars l).getLast? = some c) : jsWhitespace c = false := by
  unfold trimChars at hc
  rw [List.getLast?_reverse] at hc
  exact head_dropWhile_not jsWhitespace (l.dropWhile jsWhitespace).reverse c hc

/-- Claim C10: handleSubmit invokes onStart exactly when the repository name
is non-empty after trimming, and the argument passed is the trimmed string:
it equals `jsTrim` of the input and carries no leading or trailing
whitespace. -/
theorem handleSubmit_trims (repoName : String) :
    ((handleSubmit repoName).isSome ↔ jsTrim repoName ≠ "") ∧
    (∀ arg, handleSubmit repoName = some arg →
      arg = jsTrim repoName ∧
      (∀ c, arg.data.head? = some c → jsWhitespace c = false) ∧
      (∀ c, arg.data.getLast? = some c → jsWhitespace c = false)) := by
  constructor
  · unfold handleSubmit
    by_cases h : jsTrim repoName ≠ ""
    · simp [h]
    · simp [h]
  · intro arg harg
    unfold handleSubmit at harg
    by_cases h : jsTrim repoName ≠ ""
    · rw [if_pos h] at harg
      simp at harg
      subst harg
      refine ⟨rfl, ?_, ?_⟩
      · intro c hc
        exact trimChars_head repoName.data c hc
      · intro c hc
        exact trimChars_getLast repoName.data c hc
    · rw [if_neg h] at harg
      simp at harg

/-- Witness for C10 on a name with surrounding spaces: onStart is invoked
with the trimmed repository name. -/
theorem handleSubmit_trims_witness :
    ((handleSubmit "  owner/repo ").isSome ↔ jsTrim "  owner/repo " ≠ "") ∧
    ("owner/repo" = jsTrim "  owner/repo " ∧
      (∀ c, "owner/repo".data.head? = some c → jsWhitespace c = false) ∧
      (∀ c, "owner/repo".data.getLast? = some c → jsWhitespace c = false)) :=
  ⟨(handleSubmit_trims "  owner/repo ").1,
   (handleSubmit_trims "  owner/repo ").2 "owner/repo" (by decide)⟩

end GitIssueAssigner
